import Mathlib

/-!
Verification of the three-stage test-automation pipeline
(Extractor / Scenario Synthesizer / Script Synthesizer).

The Python sources are shallowly embedded: pure record manipulation is
translated directly, external capabilities (HTTP fetch, HTML parse queries,
LLM completion, JSON / spreadsheet serialization) are modelled as explicit
parameters or abstract file contents, and stateful file writes are modelled
by explicit state passing.
-/

namespace AiAutomation

/-- JSON values, as produced by the scraper and consumed by stage 2. -/
inductive Json where
  | str : String → Json
  | num : Int → Json
  | arr : List Json → Json
  | obj : List (String × Json) → Json

/-- An HTML element node: tag name, string attributes, the multi-valued
class attribute, concatenated text content, and child nodes.  This models
the queryable node tree delivered by the HTML-parse capability. -/
inductive Node where
  | mk : String → List (String × String) → List String → String → List Node → Node

def Node.tag : Node → String
  | .mk t _ _ _ _ => t

def Node.attrs : Node → List (String × String)
  | .mk _ a _ _ _ => a

def Node.classes : Node → List String
  | .mk _ _ c _ _ => c

def Node.text : Node → String
  | .mk _ _ _ x _ => x

def Node.children : Node → List Node
  | .mk _ _ _ _ cs => cs

/-- `element.get(key)`: attribute lookup without a default. -/
def getAttr (n : Node) (k : String) : Option String :=
  (n.attrs.find? (fun p => p.1 = k)).map (fun p => p.2)

/-- `element.get(key, default)`: attribute lookup with a string default. -/
def attrD (n : Node) (k d : String) : String :=
  (getAttr n k).getD d

mutual

/-- `find_all` restricted to one node: preorder collection of the node and
its descendants matching the predicate. -/
def findAllNode (p : Node → Bool) : Node → List Node
  | .mk t a c x cs =>
      (if p (.mk t a c x cs) then [Node.mk t a c x cs] else []) ++ findAllNodes p cs

/-- `soup.find_all(...)`: preorder collection over a forest of nodes,
in document order. -/
def findAllNodes (p : Node → Bool) : List Node → List Node
  | [] => []
  | n :: ns => findAllNode p n ++ findAllNodes p ns

end

mutual

/-- Preorder flattening of one node: the node followed by the flattening
of its children (document order). -/
def flatOne : Node → List Node
  | .mk t a c x cs => Node.mk t a c x cs :: flatMany cs

/-- Preorder flattening of a forest of nodes (document order). -/
def flatMany : List Node → List Node
  | [] => []
  | n :: ns => flatOne n ++ flatMany ns

end

/-- Selector for `find_all('button')`. -/
def isButtonTag (n : Node) : Bool := n.tag = "button"

/-- Selector for `find_all('input', type='button')`. -/
def isInputButton (n : Node) : Bool :=
  n.tag = "input" && (getAttr n "type" == some "button")

/-- A node counted as a button by the spec: a `button` element or an
`input` element whose type attribute is `button`. -/
def isAnyButton (n : Node) : Bool := isButtonTag n || isInputButton n

/-- Selector for `find_all('a')`. -/
def isLinkTag (n : Node) : Bool := n.tag = "a"

/-- Selector for `find_all('input')`. -/
def isInputTag (n : Node) : Bool := n.tag = "input"

/-- Selector for `find_all('form')`. -/
def isFormTag (n : Node) : Bool := n.tag = "form"

/-- The button record built by `extract_elements`:
`{"text": button.text.strip(), "id": ..., "class": ..., "type": ...}`. -/
def buttonRecord (n : Node) : Json :=
  .obj [("text", .str n.text.trim), ("id", .str (attrD n "id" "")),
        ("class", .arr (n.classes.map Json.str)), ("type", .str (attrD n "type" ""))]

/-- The link record built by `extract_elements`. -/
def linkRecord (n : Node) : Json :=
  .obj [("text", .str n.text.trim), ("href", .str (attrD n "href" "")),
        ("id", .str (attrD n "id" "")), ("class", .arr (n.classes.map Json.str))]

/-- The input record built by `extract_elements` (for inputs whose type
attribute is not `button`). -/
def inputRecord (n : Node) : Json :=
  .obj [("type", .str (attrD n "type" "")), ("name", .str (attrD n "name" "")),
        ("id", .str (attrD n "id" "")), ("placeholder", .str (attrD n "placeholder" ""))]

/-- The form record built by `extract_elements`, summarizing the form's
`input` descendants as `{type, name}` pairs. -/
def formRecord (n : Node) : Json :=
  .obj [("action", .str (attrD n "action" "")), ("method", .str (attrD n "method" "")),
        ("id", .str (attrD n "id" "")),
        ("inputs", .arr ((findAllNodes isInputTag n.children).map (fun i =>
          .obj [("type", .str (attrD i "type" "")), ("name", .str (attrD i "name" ""))])))]

/-- `WebScraper.elements`: the four-keyed element inventory. -/
structure Inventory where
  buttons : List Json
  links : List Json
  inputs : List Json
  forms : List Json

/-- The inventory as initialized by `WebScraper.__init__`. -/
def emptyInventory : Inventory := ⟨[], [], [], []⟩

/-- The button nodes collected by `extract_elements`:
`soup.find_all('button') + soup.find_all('input', type='button')`. -/
def buttonNodes (doc : List Node) : List Node :=
  findAllNodes isButtonTag doc ++ findAllNodes isInputButton doc

/-- `extract_elements` on a fetched document: appends the extracted records
to the inventory held by the scraper instance. -/
def extractElements (inv : Inventory) (doc : List Node) : Inventory :=
  { buttons := inv.buttons ++ (buttonNodes doc).map buttonRecord
    links := inv.links ++ (findAllNodes isLinkTag doc).map linkRecord
    inputs := inv.inputs ++
      ((findAllNodes isInputTag doc).filter
        (fun n => !(getAttr n "type" == some "button"))).map inputRecord
    forms := inv.forms ++ (findAllNodes isFormTag doc).map formRecord }

/-- The JSON document `json.dump(self.elements, ...)` serializes: an object
whose keys follow the insertion order of `WebScraper.__init__`. -/
def inventoryJson (inv : Inventory) : Json :=
  .obj [("buttons", .arr inv.buttons), ("links", .arr inv.links),
        ("inputs", .arr inv.inputs), ("forms", .arr inv.forms)]

/-- A persisted JSON file: the text encoding and indent width passed to
`open`/`json.dump`, and the JSON value the file holds (the serialization
library is an external capability treated as a faithful encoder/decoder). -/
structure SavedFile where
  encoding : String
  indent : Nat
  content : Json

/-- `save_to_json`: writes the inventory with `encoding='utf-8'` and
`indent=4`, replacing any previous file at the path. -/
def saveToJson (inv : Inventory) : SavedFile :=
  ⟨"utf-8", 4, inventoryJson inv⟩

/-- One extraction run as `scraper.py.__main__` performs it: construct a
fresh `WebScraper` (empty inventory), extract from the fetched document,
and save, overwriting whatever file was at the path before. -/
def runExtractor (doc : List Node) (_prior : Option SavedFile) : Option SavedFile :=
  some (saveToJson (extractElements emptyInventory doc))

/-- The top-level keys of a JSON object. -/
def topLevelKeys : Json → List String
  | .obj kvs => kvs.map Prod.fst
  | _ => []

/-- Decoder recovering an inventory from its persisted JSON document. -/
def jsonToInventory : Json → Option Inventory
  | .obj [("buttons", .arr b), ("links", .arr l), ("inputs", .arr i), ("forms", .arr f)] =>
      some ⟨b, l, i, f⟩
  | _ => none

/-! ## Stage 2: Scenario Synthesizer (`test_case_generator.py`) -/

/-- The error taxonomy of the pipeline. -/
inductive PipelineError where
  | notFoundError
  | parseError
  | extractionError
  | validationError : List String → PipelineError
  | configError
  | emptyError
deriving DecidableEq, Repr

/-- `_load_elements`: fails with `FileNotFoundError` when the file is
absent, otherwise returns the parsed JSON content. -/
def loadElements (fs : Option SavedFile) : Except PipelineError Json :=
  match fs with
  | none => .error .notFoundError
  | some f => .ok f.content

/-- `str.find(c)` on a character list: index of the first occurrence. -/
def ffindIdx (c : Char) : List Char → Option Nat
  | [] => none
  | a :: rest => if a = c then some 0 else (ffindIdx c rest).map (· + 1)

/-- `str.rfind(c)` on a character list: index of the last occurrence. -/
def rfindIdx (c : Char) : List Char → Option Nat
  | [] => none
  | a :: rest =>
    match rfindIdx c rest with
    | some i => some (i + 1)
    | none => if a = c then some 0 else none

/-- The bracket extraction of `_format_response`: `start_idx = find('[')`,
`end_idx = rfind(']') + 1`, failing when either bracket is absent, and
otherwise slicing `response_str[start_idx:end_idx]`. -/
def extractPayload (s : List Char) : Option (List Char) :=
  match ffindIdx '[' s, rfindIdx ']' s with
  | some i, some j => some ((s.drop i).take (j + 1 - i))
  | _, _ => none

/-- A parsed test-case record: a JSON object's key/value pairs. -/
abbrev TestCaseRec := List (String × Json)

/-- `key in test_case`: dictionary key membership. -/
def hasKey (r : TestCaseRec) (k : String) : Bool :=
  r.any (fun p => p.1 == k)

/-- The `required_keys` list of `_format_response`, in source order. -/
def requiredKeys : List String :=
  ["Test_Case_ID", "Test_Scenario", "Steps_to_Execute", "Expected_Result"]

/-- `[key for key in required_keys if key not in test_case]`. -/
def missingKeys (r : TestCaseRec) : List String :=
  requiredKeys.filter (fun k => !hasKey r k)

/-- The validation loop of `_format_response`: raises at the first record
with missing required keys, naming exactly those keys. -/
def checkRecords : List TestCaseRec → Except PipelineError Unit
  | [] => .ok ()
  | r :: rest =>
    if (missingKeys r).isEmpty then checkRecords rest
    else .error (.validationError (missingKeys r))

/-- `_format_response`: bracket extraction, then JSON parsing (an external
capability, passed as `parseArr`, returning the array's records when the
payload is valid JSON), then per-record validation, returning the parsed
records unchanged on success. -/
def formatResponse (parseArr : List Char → Option (List TestCaseRec))
    (response : List Char) : Except PipelineError (List TestCaseRec) :=
  match extractPayload response with
  | none => .error .extractionError
  | some payload =>
    match parseArr payload with
    | none => .error .parseError
    | some tcs =>
      match checkRecords tcs with
      | .error e => .error e
      | .ok _ => .ok tcs

/-- Observable events of a stage-2 run, in order of occurrence. -/
inductive Ev where
  | loadEv
  | llmInitEv
  | modelCallEv
  | writeEv
deriving DecidableEq, Repr

/-- Python truthiness of the credential: `not GOOGLE_API_KEY` holds when
the variable is unset or empty. -/
def keyTruthy : Option String → Bool
  | none => false
  | some s => !(s == "")

/-- `TestCaseGenerator.__init__`: loads the elements file first, then
checks the credential, then constructs the completion client.  Returns the
event trace alongside the loaded elements. -/
def stage2Init (apiKey : Option String) (fs : Option SavedFile) :
    List Ev × Except PipelineError Json :=
  match loadElements fs with
  | .error e => ([.loadEv], .error e)
  | .ok elems =>
    if keyTruthy apiKey then ([.loadEv, .llmInitEv], .ok elems)
    else ([.loadEv], .error .configError)

/-- `TestCaseGenerator.export_to_excel`: initialize, generate test cases
through one model call, fail when the generated list is empty, otherwise
write the spreadsheet.  `llm` is the completion capability (elements to raw
response text), `parseArr` the JSON-parse capability, `outFs` the
spreadsheet file before the run. -/
def stage2Export (apiKey : Option String) (fs : Option SavedFile)
    (llm : Json → List Char) (parseArr : List Char → Option (List TestCaseRec))
    (outFs : Option (List TestCaseRec)) :
    List Ev × Except PipelineError Unit × Option (List TestCaseRec) :=
  match stage2Init apiKey fs with
  | (tr, .error e) => (tr, .error e, outFs)
  | (tr, .ok elems) =>
    match formatResponse parseArr (llm elems) with
    | .error e => (tr ++ [.modelCallEv], .error e, outFs)
    | .ok tcs =>
      if tcs.isEmpty then (tr ++ [.modelCallEv], .error .emptyError, outFs)
      else (tr ++ [.modelCallEv, .writeEv], .ok (), some tcs)

/-! ## Stage 3: Script Synthesizer (`selenium_script_generator.py`) -/

/-- One row of the test-case spreadsheet consumed by stage 3. -/
structure TestCase where
  Test_Case_ID : String
  Test_Scenario : String
  Steps_to_Execute : String
  Expected_Result : String
deriving DecidableEq, Repr

/-- One row of the script spreadsheet produced by stage 3. -/
structure ScriptRecord where
  Test_Case_ID : String
  Test_Scenario : String
  Selenium_Script : String
deriving DecidableEq, Repr

/-- `SeleniumScriptGenerator.__init__`: loads the test-case spreadsheet
(failing when it is absent) and constructs the completion client with the
configured credential.  The code performs no credential check of its own. -/
def stage3Init (_apiKey : Option String) (tcFile : Option (List TestCase)) :
    Except PipelineError (List TestCase) :=
  match tcFile with
  | none => .error .notFoundError
  | some tcs => .ok tcs

/-- `generate_selenium_script`: one completion call for the row, trimming
surrounding whitespace from the raw response. -/
def generateScript (llm : TestCase → Except String String) (tc : TestCase) :
    Except String String :=
  match llm tc with
  | .error e => .error e
  | .ok resp => .ok resp.trim

/-- The per-row loop of `export_to_excel`: one `generate_selenium_script`
call per row, strictly sequentially in input order, stopping at the first
failure.  Returns the list of rows on which the model was invoked (the call
trace) together with the accumulated script records. -/
def generateAll (llm : TestCase → Except String String) :
    List TestCase → List TestCase × Except String (List ScriptRecord)
  | [] => ([], .ok [])
  | tc :: rest =>
    match generateScript llm tc with
    | .error e => ([tc], .error e)
    | .ok script =>
      match generateAll llm rest with
      | (tr, .error e) => (tc :: tr, .error e)
      | (tr, .ok rows) =>
        (tc :: tr, .ok (⟨tc.Test_Case_ID, tc.Test_Scenario, script⟩ :: rows))

/-- `SeleniumScriptGenerator.export_to_excel`: runs the per-row loop and
only then writes the output spreadsheet; on any failure the exception
propagates and the file at the output path is left untouched. -/
def exportScripts (llm : TestCase → Except String String) (tcs : List TestCase)
    (outFs : Option (List ScriptRecord)) :
    List TestCase × Except String Unit × Option (List ScriptRecord) :=
  match generateAll llm tcs with
  | (tr, .error e) => (tr, .error e, outFs)
  | (tr, .ok rows) => (tr, .ok (), some rows)

/-! ## Concrete data and observation helpers used in witnesses -/

/-- A stub completion capability that fails on the row `TC002` and answers
fixed text elsewhere. -/
def c3llm : TestCase → Except String String :=
  fun tc => if tc.Test_Case_ID = "TC002" then .error "model failure" else .ok " script "

def c3row1 : TestCase := ⟨"TC001", "a", "b", "c"⟩

def c3row2 : TestCase := ⟨"TC002", "d", "e", "f"⟩

def c3row3 : TestCase := ⟨"TC003", "g", "h", "i"⟩

/-- A complete parsed test-case record holding all four required keys. -/
def c1rec : TestCaseRec :=
  [("Test_Case_ID", .str "TC001"), ("Test_Scenario", .str "s"),
   ("Steps_to_Execute", .str "1."), ("Expected_Result", .str "ok")]

/-- An `<input type="button">` element. -/
def inputButtonNode : Node := .mk "input" [("type", "button")] [] "" []

/-- A `<button>` element. -/
def buttonNode : Node := .mk "button" [] [] "Log in" []

/-- The claim's reference sequence for C5, following the spec's words: the
button records listed in document order — one record per button element
(counting both button tags and input type=button elements), ordered by
preorder document position. -/
def buttonsInDocumentOrder (doc : List Node) : List Json :=
  ((flatMany doc).filter isAnyButton).map buttonRecord

/-- Observation: the string held under the `type` key of a JSON object. -/
def typeField : Json → String
  | .obj kvs =>
    match kvs.find? (fun p => p.1 == "type") with
    | some (_, .str s) => s
    | _ => ""
  | _ => ""

/-! ## Helper lemmas -/

theorem ffindIdx_eq_none_iff (c : Char) (s : List Char) :
    ffindIdx c s = none ↔ c ∉ s := by
  induction s with
  | nil => simp [ffindIdx]
  | cons a rest ih =>
    by_cases h : a = c
    · subst h
      simp [ffindIdx]
    · simp [ffindIdx, h, ih, Ne.symm h]

theorem rfindIdx_eq_none_iff (c : Char) (s : List Char) :
    rfindIdx c s = none ↔ c ∉ s := by
  induction s with
  | nil => simp [rfindIdx]
  | cons a rest ih =>
    rw [rfindIdx]
    cases hr : rfindIdx c rest with
    | some i => simp [hr] at ih; simp [ih]
    | none =>
      rw [hr] at ih
      by_cases h : a = c
      · subst h; simp
      · simp [h, ih.mp rfl, Ne.symm h]

theorem ffindIdx_append (c : Char) (p rest : List Char) (hp : c ∉ p) :
    ffindIdx c (p ++ c :: rest) = some p.length := by
  induction p with
  | nil => simp [ffindIdx]
  | cons a p ih =>
    have ha : a ≠ c := fun h => hp (by simp [h])
    have hp2 : c ∉ p := fun h => hp (by simp [h])
    simp [ffindIdx, ha, ih hp2]

theorem rfindIdx_append (c : Char) (pre q : List Char) (hq : c ∉ q) :
    rfindIdx c (pre ++ c :: q) = some pre.length := by
  induction pre with
  | nil =>
    have : rfindIdx c q = none := (rfindIdx_eq_none_iff c q).mpr hq
    simp [rfindIdx, this]
  | cons a pre ih =>
    rw [List.cons_append, rfindIdx, ih]
    simp

theorem checkRecords_ok (tcs : List TestCaseRec)
    (h : ∀ r ∈ tcs, missingKeys r = []) : checkRecords tcs = .ok () := by
  induction tcs with
  | nil => rfl
  | cons r rest ih =>
    have hr : missingKeys r = [] := h r (by simp)
    simp [checkRecords, hr, ih (fun r2 h2 => h r2 (by simp [h2]))]

theorem checkRecords_err (tcs : List TestCaseRec)
    (h : ∃ r ∈ tcs, missingKeys r ≠ []) :
    ∃ r2 ∈ tcs, missingKeys r2 ≠ [] ∧
      checkRecords tcs = .error (.validationError (missingKeys r2)) := by
  induction tcs with
  | nil => simp at h
  | cons r rest ih =>
    by_cases hr : missingKeys r = []
    · have hrest : ∃ r2 ∈ rest, missingKeys r2 ≠ [] := by
        rcases h with ⟨r2, hmem, hne⟩
        rcases List.mem_cons.mp hmem with heq | hmem2
        · exact absurd hr (heq ▸ hne)
        · exact ⟨r2, hmem2, hne⟩
      rcases ih hrest with ⟨r2, hmem2, hne2, heq2⟩
      refine ⟨r2, by simp [hmem2], hne2, ?_⟩
      simpa [checkRecords, hr] using heq2
    · refine ⟨r, by simp, hr, ?_⟩
      simp [checkRecords, List.isEmpty_iff, hr]

theorem generateAll_ok (f : TestCase → String) (tcs : List TestCase) :
    generateAll (fun tc => .ok (f tc)) tcs =
      (tcs, .ok (tcs.map (fun tc =>
        ⟨tc.Test_Case_ID, tc.Test_Scenario, (f tc).trim⟩))) := by
  induction tcs with
  | nil => rfl
  | cons tc rest ih => simp [generateAll, generateScript, ih]

theorem generateAll_fail (llm : TestCase → Except String String)
    (pre rest : List TestCase) (tc : TestCase) (e : String)
    (hpre : ∀ tc2 ∈ pre, ∃ s, llm tc2 = .ok s)
    (hfail : llm tc = .error e) :
    generateAll llm (pre ++ tc :: rest) = (pre ++ [tc], .error e) := by
  induction pre with
  | nil => simp [generateAll, generateScript, hfail]
  | cons p pre ih =>
    rcases hpre p (by simp) with ⟨s, hs⟩
    have ih2 := ih (fun tc2 h2 => hpre tc2 (by simp [h2]))
    simp [generateAll, generateScript, hs, ih2]

theorem length_filter_add_of_disjoint {α : Type} (p q : α → Bool) (l : List α)
    (h : ∀ a, p a = true → q a = false) :
    (l.filter p).length + (l.filter q).length = l.countP (fun a => p a || q a) := by
  induction l with
  | nil => rfl
  | cons a l ih =>
    cases hp : p a with
    | true =>
      have hq := h a hp
      simp [List.filter_cons, List.countP_cons, hp, hq]
      omega
    | false =>
      cases hq : q a with
      | true =>
        simp [List.filter_cons, List.countP_cons, hp, hq]
        omega
      | false =>
        simp [List.filter_cons, List.countP_cons, hp, hq, ih]

theorem filter_append_perm_or {α : Type} (p q : α → Bool) (l : List α)
    (h : ∀ a, p a = true → q a = false) :
    (l.filter p ++ l.filter q).Perm (l.filter (fun a => p a || q a)) := by
  induction l with
  | nil => simp
  | cons a l ih =>
    cases hp : p a with
    | true =>
      have hq := h a hp
      simpa [List.filter_cons, hp, hq] using ih.cons a
    | false =>
      cases hq : q a with
      | true =>
        rw [List.filter_cons, List.filter_cons, List.filter_cons]
        simp only [hp, hq, Bool.false_or, if_false, if_true, cond_true, cond_false]
        exact List.perm_middle.trans (ih.cons a)
      | false =>
        simpa [List.filter_cons, hp, hq] using ih

mutual

theorem findAllNode_eq_filter (p : Node → Bool) (n : Node) :
    findAllNode p n = (flatOne n).filter p := by
  cases n with
  | mk t a c x cs =>
    rw [findAllNode, flatOne, List.filter_cons]
    rw [findAllNodes_eq_filter p cs]
    cases hp : p (Node.mk t a c x cs) <;> simp [hp]

theorem findAllNodes_eq_filter (p : Node → Bool) (ns : List Node) :
    findAllNodes p ns = (flatMany ns).filter p := by
  cases ns with
  | nil => rfl
  | cons n ns =>
    rw [findAllNodes, flatMany, List.filter_append]
    rw [findAllNode_eq_filter p n, findAllNodes_eq_filter p ns]

end

/-! ## Claim theorems -/

/-- C7: persisting an ElementInventory with `save_to_json` and loading the
file back as JSON yields a structurally equal mapping; the persisted file is
a UTF-8, 4-space-indented JSON object whose top-level keys are exactly
buttons, links, inputs, forms. -/
theorem C7_save_load_roundtrip (inv : Inventory) :
    loadElements (some (saveToJson inv)) = .ok (inventoryJson inv) ∧
    jsonToInventory (inventoryJson inv) = some inv ∧
    topLevelKeys (inventoryJson inv) = ["buttons", "links", "inputs", "forms"] ∧
    (saveToJson inv).encoding = "utf-8" ∧
    (saveToJson inv).indent = 4 :=
  ⟨rfl, rfl, rfl, rfl, rfl⟩

/-- C9: each extraction run builds the inventory fresh and fully replaces
any prior persisted inventory, so running the Extractor twice against an
unchanged fetched document yields the same persisted file as running it
once. -/
theorem C9_extraction_fresh_idempotent (doc : List Node) (fs : Option SavedFile) :
    runExtractor doc (runExtractor doc fs) = runExtractor doc fs ∧
    runExtractor doc fs = runExtractor doc none :=
  ⟨rfl, rfl⟩

/-- C8: when the elements JSON file is absent, Scenario Synthesizer's load
fails with `NotFoundError` and no model call is ever attempted during that
run. -/
theorem C8_absent_elements_no_model_call (apiKey : Option String)
    (llm : Json → List Char) (parseArr : List Char → Option (List TestCaseRec))
    (outFs : Option (List TestCaseRec)) :
    stage2Export apiKey none llm parseArr outFs =
      ([.loadEv], .error .notFoundError, outFs) ∧
    Ev.modelCallEv ∉ (stage2Export apiKey none llm parseArr outFs).1 := by
  refine ⟨rfl, ?_⟩
  intro h
  simp [stage2Export, stage2Init, loadElements] at h

/-- C6 counterexample: with the credential absent, stage 3's initialization
succeeds on a present test-case file — the code raises no configuration
error, refuting the claim that both stages fail fast. -/
theorem C6_counterexample :
    stage3Init none (some [(⟨"TC001", "Verify login", "1. Open page", "Logged in"⟩ : TestCase)]) =
      .ok [(⟨"TC001", "Verify login", "1. Open page", "Logged in"⟩ : TestCase)] := rfl

/-- C6 amended: at startup of stage 2, an absent GOOGLE_API_KEY makes
initialization fail fast with a configuration error before any model call;
stage 3's initialization performs no credential check of its own and
succeeds with the credential absent. -/
theorem C6_amended_credential_check (f : SavedFile)
    (llm : Json → List Char) (parseArr : List Char → Option (List TestCaseRec))
    (outFs : Option (List TestCaseRec)) (tcs : List TestCase) :
    stage2Init none (some f) = ([.loadEv], .error .configError) ∧
    stage2Export none (some f) llm parseArr outFs =
      ([.loadEv], .error .configError, outFs) ∧
    Ev.modelCallEv ∉ (stage2Export none (some f) llm parseArr outFs).1 ∧
    stage3Init none (some tcs) = .ok tcs := by
  refine ⟨rfl, rfl, ?_, rfl⟩
  intro h
  simp [stage2Export, stage2Init, loadElements, keyTruthy] at h

/-- C10: when the model response parses and validates to an empty record
list, stage 2's export fails with an error and leaves the spreadsheet file
untouched — a zero-row table is never persisted. -/
theorem C10_empty_generation_not_persisted (apiKey : Option String) (f : SavedFile)
    (llm : Json → List Char) (parseArr : List Char → Option (List TestCaseRec))
    (outFs : Option (List TestCaseRec))
    (hkey : keyTruthy apiKey = true)
    (hfmt : formatResponse parseArr (llm f.content) = .ok []) :
    stage2Export apiKey (some f) llm parseArr outFs =
      ([.loadEv, .llmInitEv, .modelCallEv], .error .emptyError, outFs) := by
  simp [stage2Export, stage2Init, loadElements, hkey, hfmt]

theorem C10_witness :
    stage2Export (some "key") (some ⟨"utf-8", 4, .obj []⟩)
        (fun _ => ['[', ']']) (fun _ => some []) none =
      ([.loadEv, .llmInitEv, .modelCallEv], .error .emptyError, none) :=
  C10_empty_generation_not_persisted (some "key") ⟨"utf-8", 4, .obj []⟩
    (fun _ => ['[', ']']) (fun _ => some []) none (by decide) (by rfl)

/-- C4: with a completion capability returning fixed text per call, stage
3's output table has exactly one row per input row, in input order, each
carrying the originating row's Test_Case_ID and Test_Scenario unchanged and
the model's response trimmed of surrounding whitespace. -/
theorem C4_script_table_shape (f : TestCase → String) (tcs : List TestCase)
    (outFs : Option (List ScriptRecord)) :
    exportScripts (fun tc => .ok (f tc)) tcs outFs =
      (tcs, .ok (), some (tcs.map (fun tc =>
        ⟨tc.Test_Case_ID, tc.Test_Scenario, (f tc).trim⟩))) ∧
    (tcs.map (fun tc =>
      (⟨tc.Test_Case_ID, tc.Test_Scenario, (f tc).trim⟩ : ScriptRecord))).length =
      tcs.length := by
  refine ⟨?_, by simp⟩
  simp [exportScripts, generateAll_ok]

/-- C3: if per-row generation fails for any row, stage 3's export fails as
a whole and the output file is left untouched; rows are processed strictly
sequentially in input order (the call trace is exactly the prefix up to and
including the first failing row, each called once, no retries). -/
theorem C3_all_or_nothing (llm : TestCase → Except String String)
    (pre rest : List TestCase) (tc : TestCase) (e : String)
    (outFs : Option (List ScriptRecord))
    (hpre : ∀ tc2 ∈ pre, ∃ s, llm tc2 = .ok s)
    (hfail : llm tc = .error e) :
    exportScripts llm (pre ++ tc :: rest) outFs = (pre ++ [tc], .error e, outFs) := by
  simp [exportScripts, generateAll_fail llm pre rest tc e hpre hfail]

theorem C3_witness :
    exportScripts c3llm ([c3row1] ++ c3row2 :: [c3row3]) (some []) =
      ([c3row1] ++ [c3row2], .error "model failure", some []) :=
  C3_all_or_nothing c3llm [c3row1] [c3row3] c3row2 "model failure" (some [])
    (by
      intro tc2 h2
      rw [List.mem_singleton] at h2
      subst h2
      exact ⟨" script ", rfl⟩)
    (by rfl)

/-- C2: response handling takes as payload the substring from the first
opening bracket to the last closing bracket inclusive, fails with
`ExtractionError` exactly when the response lacks an opening or a closing
bracket, and succeeds on a response with surrounding prose around the
bracketed array. -/
theorem C2_bracket_extraction (s p m q : List Char)
    (hp : '[' ∉ p) (hq : ']' ∉ q) :
    (extractPayload s = none ↔ '[' ∉ s ∨ ']' ∉ s) ∧
    extractPayload (p ++ '[' :: (m ++ ']' :: q)) = some ('[' :: (m ++ [']'])) := by
  constructor
  · cases h1 : ffindIdx '[' s with
    | none =>
      simp [extractPayload, h1]
      exact Or.inl ((ffindIdx_eq_none_iff '[' s).mp h1)
    | some i =>
      cases h2 : rfindIdx ']' s with
      | none =>
        simp [extractPayload, h1, h2]
        exact Or.inr ((rfindIdx_eq_none_iff ']' s).mp h2)
      | some j =>
        have m1 : '[' ∈ s := by
          by_contra hc
          rw [(ffindIdx_eq_none_iff '[' s).mpr hc] at h1
          exact Option.noConfusion h1
        have m2 : ']' ∈ s := by
          by_contra hc
          rw [(rfindIdx_eq_none_iff ']' s).mpr hc] at h2
          exact Option.noConfusion h2
        simp [extractPayload, h1, h2, m1, m2]
  · have e1 : ffindIdx '[' (p ++ '[' :: (m ++ ']' :: q)) = some p.length :=
      ffindIdx_append '[' p (m ++ ']' :: q) hp
    have e2 : rfindIdx ']' (p ++ '[' :: (m ++ ']' :: q)) =
        some (p.length + 1 + m.length) := by
      have h3 := rfindIdx_append ']' (p ++ '[' :: m) q hq
      rw [List.append_assoc, List.cons_append] at h3
      rw [h3]
      simp
      omega
    simp only [extractPayload, e1, e2]
    have hd : (p ++ '[' :: (m ++ ']' :: q)).drop p.length = '[' :: (m ++ ']' :: q) :=
      List.drop_left p ('[' :: (m ++ ']' :: q))
    have harith : p.length + 1 + m.length + 1 - p.length = m.length + 1 + 1 := by omega
    rw [hd, harith]
    rw [List.take_succ_cons]
    have h4 : m ++ ']' :: q = (m ++ [']']) ++ q := by simp
    rw [h4]
    have h5 : m.length + 1 = (m ++ [']']).length := by simp
    rw [h5, List.take_left]

theorem C2_witness :
    ((extractPayload ['x'] = none ↔ '[' ∉ ['x'] ∨ ']' ∉ ['x']) ∧
      extractPayload (['a'] ++ '[' :: (['1'] ++ ']' :: ['b'])) =
        some ('[' :: (['1'] ++ [']']))) :=
  C2_bracket_extraction ['x'] ['a'] ['1'] ['b'] (by decide) (by decide)

/-- C1: when the extracted payload parses as a JSON array of records,
`generate` fails with `ValidationError` naming exactly the required keys
absent from a record whenever some record lacks one of the four required
keys (a record missing only Expected_Result yields exactly that singleton
list), and succeeds returning the parsed records whenever every record has
all four keys, with no check on extra keys, value types, or count. -/
theorem C1_validation_required_keys
    (parseArr : List Char → Option (List TestCaseRec))
    (response payload : List Char) (tcs : List TestCaseRec)
    (hex : extractPayload response = some payload)
    (hparse : parseArr payload = some tcs) :
    ((∀ r ∈ tcs, missingKeys r = []) → formatResponse parseArr response = .ok tcs) ∧
    ((∃ r ∈ tcs, missingKeys r ≠ []) →
      ∃ r2 ∈ tcs, missingKeys r2 ≠ [] ∧
        formatResponse parseArr response = .error (.validationError (missingKeys r2))) ∧
    (∀ r : TestCaseRec, hasKey r "Test_Case_ID" = true → hasKey r "Test_Scenario" = true →
      hasKey r "Steps_to_Execute" = true → hasKey r "Expected_Result" = false →
      missingKeys r = ["Expected_Result"]) := by
  refine ⟨?_, ?_, ?_⟩
  · intro hall
    simp [formatResponse, hex, hparse, checkRecords_ok tcs hall]
  · intro hsome
    rcases checkRecords_err tcs hsome with ⟨r2, hmem, hne, heq⟩
    exact ⟨r2, hmem, hne, by simp [formatResponse, hex, hparse, heq]⟩
  · intro r h1 h2 h3 h4
    simp [missingKeys, requiredKeys, List.filter_cons, h1, h2, h3, h4]

theorem C1_witness :
    formatResponse (fun _ => some [c1rec]) ['[', ']'] = .ok [c1rec] := by
  have h := C1_validation_required_keys (fun _ => some [c1rec]) ['[', ']'] ['[', ']']
    [c1rec] rfl rfl
  exact h.1 (by
    intro r hr
    rw [List.mem_singleton] at hr
    subst hr
    rfl)

/-- C5 counterexample: in a document whose input-type-button precedes its
button tag, the extracted buttons sequence lists the button tag's record
first — not document order — refuting the claim as stated. -/
theorem C5_counterexample :
    (extractElements emptyInventory [inputButtonNode, buttonNode]).buttons ≠
      buttonsInDocumentOrder [inputButtonNode, buttonNode] := by
  intro h
  have h2 := congrArg (List.map typeField) h
  exact absurd h2 (by decide)

/-- C5 amended: the buttons sequence has exactly N records, where N counts
both button tags and input-type-button elements; it is exactly the
document-order list of button-tag records followed by the document-order
list of input-type-button records — hence a permutation of the overall
document-order sequence; and it coincides with overall document order
whenever the document has no input-type-button elements. -/
theorem C5_amended_button_count_order (doc : List Node) :
    (extractElements emptyInventory doc).buttons.length =
      (flatMany doc).countP isAnyButton ∧
    (extractElements emptyInventory doc).buttons =
      ((flatMany doc).filter isButtonTag).map buttonRecord ++
        ((flatMany doc).filter isInputButton).map buttonRecord ∧
    ((extractElements emptyInventory doc).buttons).Perm (buttonsInDocumentOrder doc) ∧
    ((flatMany doc).filter isInputButton = [] →
      (extractElements emptyInventory doc).buttons = buttonsInDocumentOrder doc) := by
  have hdisj : ∀ n, isButtonTag n = true → isInputButton n = false := by
    intro n hb
    simp only [isButtonTag, decide_eq_true_eq] at hb
    simp [isInputButton, hb]
  have hbtn : (extractElements emptyInventory doc).buttons =
      ((flatMany doc).filter isButtonTag ++ (flatMany doc).filter isInputButton).map
        buttonRecord := by
    simp [extractElements, emptyInventory, buttonNodes, findAllNodes_eq_filter]
  refine ⟨?_, ?_, ?_, ?_⟩
  · rw [hbtn, List.length_map, List.length_append]
    exact length_filter_add_of_disjoint isButtonTag isInputButton (flatMany doc) hdisj
  · rw [hbtn, List.map_append]
  · rw [hbtn, buttonsInDocumentOrder]
    exact List.Perm.map buttonRecord
      (filter_append_perm_or isButtonTag isInputButton (flatMany doc) hdisj)
  · intro hempty
    rw [hbtn, hempty, List.append_nil, buttonsInDocumentOrder]
    congr 1
    apply List.filter_congr
    intro n hn
    have hfalse : isInputButton n = false := by
      have := List.filter_eq_nil_iff.mp hempty n hn
      simpa using this
    simp [isAnyButton, hfalse]

theorem C5_amended_witness :
    (extractElements emptyInventory [buttonNode]).buttons.length =
      (flatMany [buttonNode]).countP isAnyButton ∧
    (extractElements emptyInventory [buttonNode]).buttons =
      ((flatMany [buttonNode]).filter isButtonTag).map buttonRecord ++
        ((flatMany [buttonNode]).filter isInputButton).map buttonRecord ∧
    (extractElements emptyInventory [buttonNode]).buttons =
      buttonsInDocumentOrder [buttonNode] :=
  ⟨(C5_amended_button_count_order [buttonNode]).1,
   (C5_amended_button_count_order [buttonNode]).2.1,
   (C5_amended_button_count_order [buttonNode]).2.2.2 (by rfl)⟩

end AiAutomation
